import Mathlib

/-!
Verification of the retry/backoff utility in `artkit/model/util/_retry.py`.

The module defines two decorators:

* `retry_function_with_exponential_backoff` wraps an async operation and
  retries it on `RateLimitException`, sleeping an exponentially growing
  (optionally jittered) delay after each caught failure, up to `max_retries`
  attempts, then raises `RateLimitException("Rate limit error after max
  retries.") from last_exception`.
* `retry_with_exponential_backoff` reads the four policy values from the
  receiver (`self`) at call time and delegates to the first decorator; it
  detects an already-wrapped function by code-object identity and returns it
  unchanged.

We embed the loop as a structural recursion over the remaining attempt
budget.  Delays are modelled as exact rationals; the call
`random.random()` is modelled as an explicit stream `rand : Nat → ℚ` of
draws, consumed one per caught recoverable failure (the Python code
evaluates `jitter * random.random()`, so a draw is consumed even when
`jitter` is false, but it is multiplied by zero).
-/

namespace Retry

/-- One invocation of the wrapped operation either returns a value, raises
the designated recoverable `RateLimitException` (with a message identifying
the instance), or raises some other, non-recoverable exception with a kind
and payload. -/
inductive Outcome (α : Type) where
  | success (val : α)
  | rateLimit (msg : String)
  | failure (kind : String) (payload : String)

/-- Exceptions observable by the caller of the wrapper.  `rateLimit` models
a `RateLimitException`, carrying its message and its `__cause__` chain
(`raise ... from ...`).  `nonRecoverable` is any other exception kind,
propagated unmodified.  `unboundLocal` models Python's `UnboundLocalError`,
raised when a local variable is referenced before assignment. -/
inductive Exc where
  | rateLimit (msg : String) (cause : Option Exc)
  | nonRecoverable (kind : String) (payload : String)
  | unboundLocal (name : String)

/-- The Python exception type (class) of an observable exception. -/
def Exc.kind : Exc → String
  | .rateLimit _ _ => "RateLimitException"
  | .nonRecoverable k _ => k
  | .unboundLocal _ => "UnboundLocalError"

/-- The message used by the exhaustion error in the source:
`raise RateLimitException("Rate limit error after max retries.")`. -/
def exhaustedMsg : String := "Rate limit error after max retries."

/-- Observable behaviour of one call to the wrapper: the returned value or
raised exception, the exact sequence of delays passed to `asyncio.sleep`
(in order), and the number of invocations of the wrapped operation. -/
structure RunResult (α : Type) where
  result : Except Exc α
  sleeps : List ℚ
  attempts : Nat

/-- The body of `exponential_delay`, embedded as structural recursion on the
remaining attempt budget `fuel`.  `attempt` is the 1-based value of
`num_retries`, `delay` the current value of the mutated `initial_delay`
local, `lastExc` the current value of the `last_exception` local (`none`
while unassigned), and `randIdx` indexes the next draw of
`random.random()`.  When the budget is exhausted the function executes
`raise RateLimitException("Rate limit error after max retries.") from
last_exception`; if `last_exception` was never assigned this reference
raises `UnboundLocalError`. -/
def runRetry {α : Type} (op : Nat → Outcome α) (base : ℚ) (jitter : Bool)
    (rand : Nat → ℚ) :
    Nat → Nat → ℚ → Option Exc → Nat → RunResult α
  | 0, _, _, lastExc, _ =>
    match lastExc with
    | some e => ⟨.error (.rateLimit exhaustedMsg (some e)), [], 0⟩
    | none => ⟨.error (.unboundLocal "last_exception"), [], 0⟩
  | fuel + 1, attempt, delay, _lastExc, randIdx =>
    match op attempt with
    | .success v => ⟨.ok v, [], 1⟩
    | .failure k p => ⟨.error (.nonRecoverable k p), [], 1⟩
    | .rateLimit msg =>
      let d := delay * (base * (1 + (if jitter then rand randIdx else 0)))
      let r := runRetry op base jitter rand fuel (attempt + 1) d
        (some (.rateLimit msg none)) (randIdx + 1)
      ⟨r.result, d :: r.sleeps, r.attempts + 1⟩

/-- Embedding of `retry_function_with_exponential_backoff`: the wrapper
starts at `num_retries = 1` with the configured initial delay,
`last_exception` unassigned, and the random stream at its first draw. -/
def retry_function_with_exponential_backoff {α : Type} (op : Nat → Outcome α)
    (max_retries : Nat) (delay : ℚ) (exponential_base : ℚ) (jitter : Bool)
    (rand : Nat → ℚ) : RunResult α :=
  runRetry op exponential_base jitter rand max_retries 1 delay none 0

/-- A receiver object exposing the four policy attributes read by
`retry_with_exponential_backoff`'s `_wrapper` at call time. -/
structure Receiver where
  initial_delay : ℚ
  max_retries : Nat
  exponential_base : ℚ
  jitter : Bool

/-- An async connector method as seen by `retry_with_exponential_backoff`:
either a plain method (its own code object) or a `_wrapper` closure already
produced by the decorator (all such closures share the `_wrapper` code
object, which is what `func.__code__ is _wrapper.__code__` detects). -/
inductive ConnectorFn (α : Type) where
  | plain (f : Receiver → Nat → Outcome α)
  | wrapperOf (f : Receiver → Nat → Outcome α)

/-- Embedding of `retry_with_exponential_backoff`: wraps a plain method; if
the argument is already a `_wrapper` (detected by code-object identity) it
is returned unchanged. -/
def retry_with_exponential_backoff {α : Type} :
    ConnectorFn α → ConnectorFn α
  | .plain f => .wrapperOf f
  | .wrapperOf f => .wrapperOf f

/-- Calling a connector method on a receiver.  A plain method executes one
direct invocation.  A `_wrapper` reads `initial_delay`, `max_retries`,
`exponential_base` and `jitter` from the receiver at call time and
delegates to `retry_function_with_exponential_backoff`. -/
def ConnectorFn.invoke {α : Type} (g : ConnectorFn α) (self : Receiver)
    (rand : Nat → ℚ) : RunResult α :=
  match g with
  | .plain f =>
    match f self 1 with
    | .success v => ⟨.ok v, [], 1⟩
    | .rateLimit m => ⟨.error (.rateLimit m none), [], 1⟩
    | .failure k p => ⟨.error (.nonRecoverable k p), [], 1⟩
  | .wrapperOf f =>
    retry_function_with_exponential_backoff (f self) self.max_retries
      self.initial_delay self.exponential_base self.jitter rand

/-- A receiver whose attribute values may be changed between calls: the
value of each attribute as a function of (call) time. -/
def wrapper_call_at {α : Type} (f : Receiver → Nat → Outcome α)
    (recv : Nat → Receiver) (t : Nat) (rand : Nat → ℚ) : RunResult α :=
  (ConnectorFn.wrapperOf f).invoke (recv t) rand

/-- The delay sequence starting from current delay `d` with base `b` and no
jitter: each wait is the previous wait (initially `d`) times `b`, exactly. -/
def GeomFrom (d b : ℚ) : List ℚ → Prop
  | [] => True
  | x :: xs => x = d * b ∧ GeomFrom x b xs

/-- The jittered delay sequence starting from current delay `d` with base
`b`: each wait lies in `[prev * b, 2 * (prev * b))` where `prev` is the
previous actual (jittered) wait, initially `d`. -/
def JitterFrom (d b : ℚ) : List ℚ → Prop
  | [] => True
  | x :: xs => d * b ≤ x ∧ x < 2 * (d * b) ∧ JitterFrom x b xs

/-- An operation that raises `RateLimitException` on every attempt, with a
message identifying the attempt. -/
def opRL {α : Type} (m : Nat → String) : Nat → Outcome α :=
  fun k => .rateLimit (m k)

/-- A concrete operation that raises the rate-limit failure on its first
two attempts and succeeds with `42` on the third. -/
def opSucceedsThird : Nat → Outcome Nat :=
  fun i => if i < 3 then .rateLimit (toString i) else .success 42

/-- A concrete operation that raises the rate-limit failure on its first
attempt and a non-recoverable `ValueError` on the second. -/
def opFailsSecond : Nat → Outcome Nat :=
  fun i => if i < 2 then .rateLimit (toString i) else .failure "ValueError" "boom"

/-- A concrete receiver with a retry budget of 3 attempts. -/
def rA : Receiver := ⟨1, 3, 2, false⟩

/-- A concrete receiver with a retry budget of 5 attempts. -/
def rB : Receiver := ⟨1, 5, 2, false⟩

/-- A receiver history: attributes are `rA`'s values at call time 0 and
`rB`'s values afterwards (the attribute was changed between the calls). -/
def recvAB : Nat → Receiver := fun t => if t = 0 then rA else rB

/-!  Step equations for `runRetry`, one per field, used by the inductions
below. -/

theorem runRetry_rl_result {α : Type} {op : Nat → Outcome α} {base : ℚ}
    {jitter : Bool} {rand : Nat → ℚ} {fuel attempt : Nat} {delay : ℚ}
    {lastE : Option Exc} {rI : Nat} {msg : String}
    (h : op attempt = .rateLimit msg) :
    (runRetry op base jitter rand (fuel + 1) attempt delay lastE rI).result
      = (runRetry op base jitter rand fuel (attempt + 1)
          (delay * (base * (1 + (if jitter then rand rI else 0))))
          (some (.rateLimit msg none)) (rI + 1)).result := by
  simp [runRetry, h]

theorem runRetry_rl_attempts {α : Type} {op : Nat → Outcome α} {base : ℚ}
    {jitter : Bool} {rand : Nat → ℚ} {fuel attempt : Nat} {delay : ℚ}
    {lastE : Option Exc} {rI : Nat} {msg : String}
    (h : op attempt = .rateLimit msg) :
    (runRetry op base jitter rand (fuel + 1) attempt delay lastE rI).attempts
      = (runRetry op base jitter rand fuel (attempt + 1)
          (delay * (base * (1 + (if jitter then rand rI else 0))))
          (some (.rateLimit msg none)) (rI + 1)).attempts + 1 := by
  simp [runRetry, h]

theorem runRetry_rl_sleeps {α : Type} {op : Nat → Outcome α} {base : ℚ}
    {jitter : Bool} {rand : Nat → ℚ} {fuel attempt : Nat} {delay : ℚ}
    {lastE : Option Exc} {rI : Nat} {msg : String}
    (h : op attempt = .rateLimit msg) :
    (runRetry op base jitter rand (fuel + 1) attempt delay lastE rI).sleeps
      = (delay * (base * (1 + (if jitter then rand rI else 0))))
        :: (runRetry op base jitter rand fuel (attempt + 1)
          (delay * (base * (1 + (if jitter then rand rI else 0))))
          (some (.rateLimit msg none)) (rI + 1)).sleeps := by
  simp [runRetry, h]

theorem runRetry_success_eq {α : Type} {op : Nat → Outcome α} {base : ℚ}
    {jitter : Bool} {rand : Nat → ℚ} {fuel attempt : Nat} {delay : ℚ}
    {lastE : Option Exc} {rI : Nat} {v : α} (h : op attempt = .success v) :
    runRetry op base jitter rand (fuel + 1) attempt delay lastE rI
      = ⟨.ok v, [], 1⟩ := by
  simp [runRetry, h]

theorem runRetry_failure_eq {α : Type} {op : Nat → Outcome α} {base : ℚ}
    {jitter : Bool} {rand : Nat → ℚ} {fuel attempt : Nat} {delay : ℚ}
    {lastE : Option Exc} {rI : Nat} {k p : String}
    (h : op attempt = .failure k p) :
    runRetry op base jitter rand (fuel + 1) attempt delay lastE rI
      = ⟨.error (.nonRecoverable k p), [], 1⟩ := by
  simp [runRetry, h]

theorem GeomFrom_nil {d b : ℚ} : GeomFrom d b [] = True := rfl

theorem GeomFrom_cons {d b x : ℚ} {xs : List ℚ} :
    GeomFrom d b (x :: xs) = (x = d * b ∧ GeomFrom x b xs) := rfl

theorem JitterFrom_nil {d b : ℚ} : JitterFrom d b [] = True := rfl

theorem JitterFrom_cons {d b x : ℚ} {xs : List ℚ} :
    JitterFrom d b (x :: xs)
      = (d * b ≤ x ∧ x < 2 * (d * b) ∧ JitterFrom x b xs) := rfl

/-- When the operation raises the rate-limit failure on every attempt, the
loop exits with the budget exhausted and raises the Retry-Exhausted error
chained to the failure caught on the last executed attempt. -/
theorem allRL_result {α : Type} (op : Nat → Outcome α) (m : Nat → String)
    (hop : ∀ k, op k = .rateLimit (m k)) (base : ℚ) (jitter : Bool)
    (rand : Nat → ℚ) :
    ∀ (fuel a : Nat) (delay : ℚ) (lastE : Option Exc) (rI : Nat),
      (runRetry op base jitter rand (fuel + 1) a delay lastE rI).result
        = .error (.rateLimit exhaustedMsg
            (some (.rateLimit (m (a + fuel)) none))) := by
  intro fuel
  induction fuel with
  | zero =>
    intro a delay lastE rI
    rw [runRetry_rl_result (hop a)]
    simp [runRetry]
  | succ f ih =>
    intro a delay lastE rI
    rw [runRetry_rl_result (hop a), ih (a + 1)]
    have h : a + 1 + f = a + (f + 1) := by omega
    rw [h]

/-- When the operation raises the rate-limit failure on every attempt, the
number of invocations equals the attempt budget (also when it is zero). -/
theorem allRL_attempts {α : Type} (op : Nat → Outcome α) (m : Nat → String)
    (hop : ∀ k, op k = .rateLimit (m k)) (base : ℚ) (jitter : Bool)
    (rand : Nat → ℚ) :
    ∀ (fuel a : Nat) (delay : ℚ) (lastE : Option Exc) (rI : Nat),
      (runRetry op base jitter rand fuel a delay lastE rI).attempts = fuel := by
  intro fuel
  induction fuel with
  | zero =>
    intro a delay lastE rI
    cases lastE <;> rfl
  | succ f ih =>
    intro a delay lastE rI
    rw [runRetry_rl_attempts (hop a), ih (a + 1)]

/-- With jitter disabled every slept delay is the previous delay (initially
the current value of the delay accumulator) times the base, exactly. -/
theorem geom_sleeps {α : Type} (op : Nat → Outcome α) (base : ℚ)
    (rand : Nat → ℚ) :
    ∀ (fuel a : Nat) (delay : ℚ) (lastE : Option Exc) (rI : Nat),
      GeomFrom delay base
        (runRetry op base false rand fuel a delay lastE rI).sleeps := by
  intro fuel
  induction fuel with
  | zero =>
    intro a delay lastE rI
    cases lastE <;> exact trivial
  | succ f ih =>
    intro a delay lastE rI
    cases hop : op a with
    | success v => rw [runRetry_success_eq hop]; exact trivial
    | failure k p => rw [runRetry_failure_eq hop]; exact trivial
    | rateLimit msg =>
      rw [runRetry_rl_sleeps hop, GeomFrom_cons]
      constructor
      · simp
      · exact ih (a + 1) _ _ _

/-- With jitter enabled and each random draw in `[0, 1)`, every slept delay
lies in `[prev * base, 2 * (prev * base))` where `prev` is the previous
actual delay (initially the current delay accumulator), provided the delay
accumulator and the base are positive. -/
theorem jitter_sleeps {α : Type} (op : Nat → Outcome α) (base : ℚ)
    (rand : Nat → ℚ) (h0 : ∀ i, 0 ≤ rand i) (h1 : ∀ i, rand i < 1)
    (hb : 0 < base) :
    ∀ (fuel a : Nat) (delay : ℚ), 0 < delay → ∀ (lastE : Option Exc) (rI : Nat),
      JitterFrom delay base
        (runRetry op base true rand fuel a delay lastE rI).sleeps := by
  intro fuel
  induction fuel with
  | zero =>
    intro a delay hd lastE rI
    cases lastE <;> exact trivial
  | succ f ih =>
    intro a delay hd lastE rI
    cases hop : op a with
    | success v => rw [runRetry_success_eq hop]; exact trivial
    | failure k p => rw [runRetry_failure_eq hop]; exact trivial
    | rateLimit msg =>
      rw [runRetry_rl_sleeps hop, JitterFrom_cons]
      simp only [if_true]
      have hdb : 0 < delay * base := mul_pos hd hb
      refine ⟨?_, ?_, ?_⟩
      · nlinarith [h0 rI]
      · nlinarith [h1 rI]
      · exact ih (a + 1) _ (by nlinarith [h0 rI]) _ _

/-- When the operation raises the rate-limit failure on attempts
`a, …, a + j - 1` and succeeds on attempt `a + j` (within the remaining
budget), the run returns the success value after `j + 1` invocations and
`j` waits. -/
theorem runRetry_prefix_success {α : Type} (op : Nat → Outcome α)
    (m : Nat → String) (v : α) (base : ℚ) (jitter : Bool) (rand : Nat → ℚ) :
    ∀ (j fuel a : Nat) (delay : ℚ) (lastE : Option Exc) (rI : Nat),
      j < fuel →
      (∀ i, a ≤ i → i < a + j → op i = .rateLimit (m i)) →
      op (a + j) = .success v →
      (runRetry op base jitter rand fuel a delay lastE rI).result = .ok v
      ∧ (runRetry op base jitter rand fuel a delay lastE rI).attempts = j + 1
      ∧ (runRetry op base jitter rand fuel a delay lastE rI).sleeps.length = j := by
  intro j
  induction j with
  | zero =>
    intro fuel a delay lastE rI hj hpre hsucc
    cases fuel with
    | zero => omega
    | succ f =>
      rw [runRetry_success_eq (by simpa using hsucc)]
      exact ⟨rfl, rfl, rfl⟩
  | succ j' ih =>
    intro fuel a delay lastE rI hj hpre hsucc
    cases fuel with
    | zero => omega
    | succ f =>
      have ha : op a = .rateLimit (m a) := hpre a le_rfl (by omega)
      obtain ⟨h1, h2, h3⟩ := ih f (a + 1)
        (delay * (base * (1 + (if jitter then rand rI else 0))))
        (some (.rateLimit (m a) none)) (rI + 1) (by omega)
        (fun i hi1 hi2 => hpre i (by omega) (by omega))
        (by have h : a + 1 + j' = a + (j' + 1) := by omega
            rw [h]; exact hsucc)
      refine ⟨?_, ?_, ?_⟩
      · rw [runRetry_rl_result ha]; exact h1
      · rw [runRetry_rl_attempts ha, h2]
      · rw [runRetry_rl_sleeps ha, List.length_cons, h3]

/-- When the operation raises the rate-limit failure on attempts
`a, …, a + j - 1` and raises a non-recoverable failure on attempt `a + j`
(within the remaining budget), the run propagates that failure unchanged
after `j + 1` invocations and `j` waits. -/
theorem runRetry_prefix_failure {α : Type} (op : Nat → Outcome α)
    (m : Nat → String) (kd pl : String) (base : ℚ) (jitter : Bool)
    (rand : Nat → ℚ) :
    ∀ (j fuel a : Nat) (delay : ℚ) (lastE : Option Exc) (rI : Nat),
      j < fuel →
      (∀ i, a ≤ i → i < a + j → op i = .rateLimit (m i)) →
      op (a + j) = .failure kd pl →
      (runRetry op base jitter rand fuel a delay lastE rI).result
        = .error (.nonRecoverable kd pl)
      ∧ (runRetry op base jitter rand fuel a delay lastE rI).attempts = j + 1
      ∧ (runRetry op base jitter rand fuel a delay lastE rI).sleeps.length = j := by
  intro j
  induction j with
  | zero =>
    intro fuel a delay lastE rI hj hpre hfail
    cases fuel with
    | zero => omega
    | succ f =>
      rw [runRetry_failure_eq (by simpa using hfail)]
      exact ⟨rfl, rfl, rfl⟩
  | succ j' ih =>
    intro fuel a delay lastE rI hj hpre hfail
    cases fuel with
    | zero => omega
    | succ f =>
      have ha : op a = .rateLimit (m a) := hpre a le_rfl (by omega)
      obtain ⟨h1, h2, h3⟩ := ih f (a + 1)
        (delay * (base * (1 + (if jitter then rand rI else 0))))
        (some (.rateLimit (m a) none)) (rI + 1) (by omega)
        (fun i hi1 hi2 => hpre i (by omega) (by omega))
        (by have h : a + 1 + j' = a + (j' + 1) := by omega
            rw [h]; exact hfail)
      refine ⟨?_, ?_, ?_⟩
      · rw [runRetry_rl_result ha]; exact h1
      · rw [runRetry_rl_attempts ha, h2]
      · rw [runRetry_rl_sleeps ha, List.length_cons, h3]

/-- C1, counterexample.  The claim asserts that with `max_retries = 3`,
`initial_delay = 1`, `exponential_base = 2`, `jitter = False` and an
operation that raises the rate-limit failure on every attempt, exactly two
waits (2.0 s and 4.0 s) occur and no wait follows the final attempt.  In
fact the code sleeps after every caught failure, including the one on the
final attempt: three waits of 2, 4 and 8 seconds occur. -/
theorem c1_counterexample :
    (retry_function_with_exponential_backoff
      (opRL (fun _ => "rl") : Nat → Outcome Nat) 3 1 2 false
      (fun _ => 0)).sleeps = [2, 4, 8]
    ∧ ¬ ((retry_function_with_exponential_backoff
      (opRL (fun _ => "rl") : Nat → Outcome Nat) 3 1 2 false
      (fun _ => 0)).sleeps.length = 2) := by
  constructor
  · norm_num [retry_function_with_exponential_backoff, runRetry, opRL]
  · norm_num [retry_function_with_exponential_backoff, runRetry, opRL]

/-- C1, amended: with `max_retries = 3`, `initial_delay = 1`, `base = 2`,
no jitter, and an operation raising the rate-limit failure on every
attempt, exactly three waits of 2.0, 4.0 and 8.0 seconds occur — one wait
follows each caught failure, including the failure of the 3rd and final
attempt — and after the final wait the Retry-Exhausted error is raised,
chained to the failure captured on the 3rd attempt; exactly 3 attempts are
made. -/
theorem c1_amended_waits :
    (retry_function_with_exponential_backoff
      (opRL (fun _ => "rl") : Nat → Outcome Nat) 3 1 2 false
      (fun _ => 0)).sleeps = [2, 4, 8]
    ∧ (retry_function_with_exponential_backoff
      (opRL (fun _ => "rl") : Nat → Outcome Nat) 3 1 2 false
      (fun _ => 0)).attempts = 3
    ∧ (retry_function_with_exponential_backoff
      (opRL (fun _ => "rl") : Nat → Outcome Nat) 3 1 2 false
      (fun _ => 0)).result
      = .error (.rateLimit exhaustedMsg (some (.rateLimit "rl" none))) := by
  refine ⟨?_, rfl, rfl⟩
  norm_num [retry_function_with_exponential_backoff, runRetry, opRL]

/-- C2 (confirmed): if the wrapped operation raises the recoverable
rate-limit failure on every invocation, the wrapper makes exactly
`N = max_retries ≥ 1` invocations and raises the Retry-Exhausted
`RateLimitException` whose cause is the recoverable failure captured on
the Nth attempt. -/
theorem c2_exhaustion_after_N_attempts {α : Type} (op : Nat → Outcome α)
    (m : Nat → String) (hop : ∀ k, op k = .rateLimit (m k)) (N : Nat)
    (hN : 1 ≤ N) (delay base : ℚ) (jitter : Bool) (rand : Nat → ℚ) :
    (retry_function_with_exponential_backoff op N delay base jitter
      rand).result
      = .error (.rateLimit exhaustedMsg (some (.rateLimit (m N) none)))
    ∧ (retry_function_with_exponential_backoff op N delay base jitter
      rand).attempts = N := by
  obtain ⟨f, rfl⟩ : ∃ f, N = f + 1 := ⟨N - 1, by omega⟩
  unfold retry_function_with_exponential_backoff
  constructor
  · rw [allRL_result op m hop base jitter rand f 1 delay none 0]
    have h : 1 + f = f + 1 := by omega
    rw [h]
  · exact allRL_attempts op m hop base jitter rand (f + 1) 1 delay none 0

/-- C2, witness at `N = 2`. -/
theorem c2_exhaustion_witness :
    (retry_function_with_exponential_backoff
      (opRL (fun k => toString k) : Nat → Outcome Nat) 2 1 2 false
      (fun _ => 0)).result
      = .error (.rateLimit exhaustedMsg (some (.rateLimit (toString 2) none)))
    ∧ (retry_function_with_exponential_backoff
      (opRL (fun k => toString k) : Nat → Outcome Nat) 2 1 2 false
      (fun _ => 0)).attempts = 2 :=
  c2_exhaustion_after_N_attempts (opRL (fun k => toString k))
    (fun k => toString k) (fun _ => rfl) 2 (by norm_num) 1 2 false (fun _ => 0)

/-- C3 (confirmed): if the wrapped operation raises the rate-limit failure
on its first `k - 1` invocations and succeeds on its `k`-th invocation
(`1 ≤ k ≤ N = max_retries`), the wrapper returns that success value,
makes exactly `k` invocations (none after the success), and exactly
`k - 1` waits occur. -/
theorem c3_success_on_attempt_k {α : Type} (op : Nat → Outcome α)
    (m : Nat → String) (v : α) (N k : Nat) (hk1 : 1 ≤ k) (hkN : k ≤ N)
    (hpre : ∀ i, 1 ≤ i → i < k → op i = .rateLimit (m i))
    (hsucc : op k = .success v) (delay base : ℚ) (jitter : Bool)
    (rand : Nat → ℚ) :
    (retry_function_with_exponential_backoff op N delay base jitter
      rand).result = .ok v
    ∧ (retry_function_with_exponential_backoff op N delay base jitter
      rand).attempts = k
    ∧ (retry_function_with_exponential_backoff op N delay base jitter
      rand).sleeps.length = k - 1 := by
  obtain ⟨j, rfl⟩ : ∃ j, k = j + 1 := ⟨k - 1, by omega⟩
  obtain ⟨h1, h2, h3⟩ := runRetry_prefix_success op m v base jitter rand
    j N 1 delay none 0 (by omega)
    (fun i hi1 hi2 => hpre i hi1 (by omega))
    (by have h : 1 + j = j + 1 := by omega
        rw [h]; exact hsucc)
  unfold retry_function_with_exponential_backoff
  exact ⟨h1, h2, by rw [h3]; omega⟩

/-- C3, witness: failure on attempts 1 and 2, success with 42 on attempt 3
of a budget of 5. -/
theorem c3_success_witness :
    (retry_function_with_exponential_backoff opSucceedsThird 5 1 2 false
      (fun _ => 0)).result = .ok 42
    ∧ (retry_function_with_exponential_backoff opSucceedsThird 5 1 2 false
      (fun _ => 0)).attempts = 3
    ∧ (retry_function_with_exponential_backoff opSucceedsThird 5 1 2 false
      (fun _ => 0)).sleeps.length = 3 - 1 :=
  c3_success_on_attempt_k opSucceedsThird (fun i => toString i) 42 5 3
    (by norm_num) (by norm_num)
    (fun i h1 h2 => by simp [opSucceedsThird, h2]) rfl 1 2 false (fun _ => 0)

/-- C4 (confirmed): if the wrapped operation raises a non-recoverable
failure on attempt `k` (after rate-limit failures on the earlier
attempts, `1 ≤ k ≤ N = max_retries`), the wrapper propagates exactly that
failure — same kind and payload — makes no further invocation after it,
and no wait occurs after it (all `k - 1` waits precede it). -/
theorem c4_nonrecoverable_propagates {α : Type} (op : Nat → Outcome α)
    (m : Nat → String) (kd pl : String) (N k : Nat) (hk1 : 1 ≤ k)
    (hkN : k ≤ N)
    (hpre : ∀ i, 1 ≤ i → i < k → op i = .rateLimit (m i))
    (hfail : op k = .failure kd pl) (delay base : ℚ) (jitter : Bool)
    (rand : Nat → ℚ) :
    (retry_function_with_exponential_backoff op N delay base jitter
      rand).result = .error (.nonRecoverable kd pl)
    ∧ (retry_function_with_exponential_backoff op N delay base jitter
      rand).attempts = k
    ∧ (retry_function_with_exponential_backoff op N delay base jitter
      rand).sleeps.length = k - 1 := by
  obtain ⟨j, rfl⟩ : ∃ j, k = j + 1 := ⟨k - 1, by omega⟩
  obtain ⟨h1, h2, h3⟩ := runRetry_prefix_failure op m kd pl base jitter rand
    j N 1 delay none 0 (by omega)
    (fun i hi1 hi2 => hpre i hi1 (by omega))
    (by have h : 1 + j = j + 1 := by omega
        rw [h]; exact hfail)
  unfold retry_function_with_exponential_backoff
  exact ⟨h1, h2, by rw [h3]; omega⟩

/-- C4, witness: a `ValueError` on attempt 2 of a budget of 4 propagates
unchanged after exactly 2 invocations and 1 wait. -/
theorem c4_nonrecoverable_witness :
    (retry_function_with_exponential_backoff opFailsSecond 4 1 2 false
      (fun _ => 0)).result = .error (.nonRecoverable "ValueError" "boom")
    ∧ (retry_function_with_exponential_backoff opFailsSecond 4 1 2 false
      (fun _ => 0)).attempts = 2
    ∧ (retry_function_with_exponential_backoff opFailsSecond 4 1 2 false
      (fun _ => 0)).sleeps.length = 2 - 1 :=
  c4_nonrecoverable_propagates opFailsSecond (fun i => toString i)
    "ValueError" "boom" 4 2 (by norm_num) (by norm_num)
    (fun i h1 h2 => by simp [opFailsSecond, h2]) rfl 1 2 false (fun _ => 0)

/-- C5 (the code contradicts the claimed safe behaviour): with
`max_retries = 0` the loop body never runs, so the local `last_exception`
is never assigned, and the `raise … from last_exception` statement
references the uninitialized local — raising `UnboundLocalError`, which is
not the Retry-Exhausted `RateLimitException` the claim requires. -/
theorem c5_unbound_local_at_zero_retries :
    (retry_function_with_exponential_backoff
      (opRL (fun _ => "rl") : Nat → Outcome Nat) 0 1 2 false
      (fun _ => 0)).result = .error (.unboundLocal "last_exception")
    ∧ Exc.kind (.unboundLocal "last_exception") ≠ "RateLimitException" :=
  ⟨rfl, by simp [Exc.kind]⟩

/-- C6 (confirmed): with jitter disabled the slept delays form the exact
geometric chain — the first wait equals `initial_delay * base` and each
subsequent wait equals the previous wait times `base`, with exact
equality. -/
theorem c6_geometric_delays {α : Type} (op : Nat → Outcome α) (N : Nat)
    (delay base : ℚ) (rand : Nat → ℚ) :
    GeomFrom delay base
      (retry_function_with_exponential_backoff op N delay base false
        rand).sleeps :=
  geom_sleeps op base rand N 1 delay none 0

/-- C7, counterexample.  The claim asserts each jittered wait lies in
`[v, 2 v)` where `v` is the corresponding wait of the no-jitter run.  With
`initial_delay = 1`, `base = 2` and every draw equal to `9/10` (an
admissible value in `[0, 1)`), the second jittered wait is `361/25 =
14.44`, while the no-jitter second wait is `v = 4`: `14.44` is not below
`2 * 4`, because jitter factors compound multiplicatively across waits. -/
theorem c7_counterexample :
    (0 : ℚ) ≤ 9 / 10 ∧ (9 : ℚ) / 10 < 1
    ∧ (retry_function_with_exponential_backoff
      (opRL (fun _ => "rl") : Nat → Outcome Nat) 3 1 2 true
      (fun _ => 9 / 10)).sleeps = [19 / 5, 361 / 25, 6859 / 125]
    ∧ (retry_function_with_exponential_backoff
      (opRL (fun _ => "rl") : Nat → Outcome Nat) 3 1 2 false
      (fun _ => 9 / 10)).sleeps = [2, 4, 8]
    ∧ ¬ ((361 : ℚ) / 25 < 2 * 4) := by
  refine ⟨by norm_num, by norm_num, ?_, ?_, by norm_num⟩
  · norm_num [retry_function_with_exponential_backoff, runRetry, opRL]
  · norm_num [retry_function_with_exponential_backoff, runRetry, opRL]

/-- C7, amended: with jitter enabled, each draw in `[0, 1)`, and positive
`initial_delay` and `exponential_base`, every slept delay lies in
`[prev * base, 2 * (prev * base))` where `prev` is the previous actual
(jittered) delay, initially `initial_delay` — i.e. each wait is the
previous wait times `base` times a factor in `[1, 2)`; the factor is not
bounded relative to the no-jitter sequence because jitter compounds. -/
theorem c7_amended_jitter_chain {α : Type} (op : Nat → Outcome α) (N : Nat)
    (delay base : ℚ) (rand : Nat → ℚ) (h0 : ∀ i, 0 ≤ rand i)
    (h1 : ∀ i, rand i < 1) (hb : 0 < base) (hd : 0 < delay) :
    JitterFrom delay base
      (retry_function_with_exponential_backoff op N delay base true
        rand).sleeps :=
  jitter_sleeps op base rand h0 h1 hb N 1 delay hd none 0

/-- C7, witness: every draw equal to `1/2`, two attempts. -/
theorem c7_jitter_witness :
    JitterFrom 1 2
      (retry_function_with_exponential_backoff
        (opRL (fun _ => "rl") : Nat → Outcome Nat) 2 1 2 true
        (fun _ => 1 / 2)).sleeps :=
  c7_amended_jitter_chain (opRL (fun _ => "rl")) 2 1 2 (fun _ => 1 / 2)
    (fun _ => by norm_num) (fun _ => by norm_num) (by norm_num) (by norm_num)

/-- C8 (confirmed): `retry_with_exponential_backoff` detects an
already-wrapped function and returns it unchanged, so wrapping is
idempotent and double-wrapping is behaviorally identical to single
wrapping on every receiver and random stream. -/
theorem c8_idempotent_wrapping :
    (∀ (α : Type) (f : Receiver → Nat → Outcome α),
      retry_with_exponential_backoff (ConnectorFn.wrapperOf f)
        = ConnectorFn.wrapperOf f)
    ∧ (∀ (α : Type) (g : ConnectorFn α),
      retry_with_exponential_backoff (retry_with_exponential_backoff g)
        = retry_with_exponential_backoff g)
    ∧ (∀ (α : Type) (g : ConnectorFn α) (self : Receiver) (rand : Nat → ℚ),
      (retry_with_exponential_backoff
        (retry_with_exponential_backoff g)).invoke self rand
        = (retry_with_exponential_backoff g).invoke self rand) :=
  ⟨fun _ _ => rfl,
   fun _ g => by cases g <;> rfl,
   fun _ g _ _ => by cases g <;> rfl⟩

/-- C9 (confirmed): the wrapped method's behaviour at a call depends only
on the receiver's attribute values at the time of that call (not at
decoration time): two receiver histories agreeing at the call instant give
identical runs; for an always-rate-limited method the number of
invocations equals the call-time `max_retries`; and with call-time
`jitter = false` the waits form the geometric chain generated by the
call-time `initial_delay` and `exponential_base`. -/
theorem c9_policy_read_at_call_time :
    (∀ (α : Type) (f : Receiver → Nat → Outcome α)
      (recv recvB : Nat → Receiver) (t tB : Nat) (rand : Nat → ℚ),
      recv t = recvB tB →
      wrapper_call_at f recv t rand = wrapper_call_at f recvB tB rand)
    ∧ (∀ (α : Type) (f : Receiver → Nat → Outcome α)
      (m : Receiver → Nat → String),
      (∀ s k, f s k = .rateLimit (m s k)) →
      ∀ (recv : Nat → Receiver) (t : Nat) (rand : Nat → ℚ),
      (wrapper_call_at f recv t rand).attempts = (recv t).max_retries)
    ∧ (∀ (α : Type) (f : Receiver → Nat → Outcome α)
      (recv : Nat → Receiver) (t : Nat) (rand : Nat → ℚ),
      (recv t).jitter = false →
      GeomFrom (recv t).initial_delay (recv t).exponential_base
        (wrapper_call_at f recv t rand).sleeps) := by
  refine ⟨?_, ?_, ?_⟩
  · intro α f recv recvB t tB rand h
    unfold wrapper_call_at
    rw [h]
  · intro α f m hop recv t rand
    exact allRL_attempts (f (recv t)) (m (recv t)) (fun k => hop (recv t) k)
      (recv t).exponential_base (recv t).jitter rand (recv t).max_retries 1
      (recv t).initial_delay none 0
  · intro α f recv t rand hj
    show GeomFrom _ _ (retry_function_with_exponential_backoff _ _ _ _
      (recv t).jitter rand).sleeps
    rw [hj]
    exact geom_sleeps (f (recv t)) (recv t).exponential_base rand
      (recv t).max_retries 1 (recv t).initial_delay none 0

/-- C9, witness: the receiver history `recvAB` has `max_retries = 3` at
call time 0 and `max_retries = 5` at call time 1; the call at time 0
coincides with a call on a receiver frozen at `rA`, and the call at time 1
makes 5 attempts — the attribute change between the calls changed the
policy used by the later call. -/
theorem c9_call_time_witness :
    wrapper_call_at (fun _ _ => (Outcome.rateLimit "rl" : Outcome Nat))
      recvAB 0 (fun _ => 0)
      = wrapper_call_at (fun _ _ => (Outcome.rateLimit "rl" : Outcome Nat))
        (fun _ => rA) 7 (fun _ => 0)
    ∧ (wrapper_call_at (fun _ _ => (Outcome.rateLimit "rl" : Outcome Nat))
      recvAB 1 (fun _ => 0)).attempts = 5 := by
  constructor
  · exact c9_policy_read_at_call_time.1 Nat _ recvAB (fun _ => rA) 0 7
      (fun _ => 0) (by simp [recvAB])
  · have h := c9_policy_read_at_call_time.2.1 Nat
      (fun _ _ => Outcome.rateLimit "rl") (fun _ _ => "rl")
      (fun _ _ => rfl) recvAB 1 (fun _ => 0)
    simpa [recvAB, rB] using h

/-- C10 (confirmed): the Retry-Exhausted error raised on budget exhaustion
is an instance of the very same exception kind (`RateLimitException`) as
the recoverable failure the wrapper catches, so the two are not
distinguishable by exception kind — only by the message and by the
exhaustion error carrying a cause. -/
theorem c10_exhaustion_same_kind {α : Type} (op : Nat → Outcome α)
    (m : Nat → String) (hop : ∀ k, op k = .rateLimit (m k)) (N : Nat)
    (hN : 1 ≤ N) (delay base : ℚ) (jitter : Bool) (rand : Nat → ℚ) :
    (retry_function_with_exponential_backoff op N delay base jitter
      rand).result
      = .error (.rateLimit exhaustedMsg (some (.rateLimit (m N) none)))
    ∧ Exc.kind (.rateLimit exhaustedMsg (some (.rateLimit (m N) none)))
      = Exc.kind (.rateLimit (m N) none)
    ∧ Exc.kind (.rateLimit (m N) none) = "RateLimitException" := by
  refine ⟨?_, rfl, rfl⟩
  obtain ⟨f, rfl⟩ : ∃ f, N = f + 1 := ⟨N - 1, by omega⟩
  unfold retry_function_with_exponential_backoff
  rw [allRL_result op m hop base jitter rand f 1 delay none 0]
  have h : 1 + f = f + 1 := by omega
  rw [h]

/-- C10, witness at `N = 1`. -/
theorem c10_same_kind_witness :
    (retry_function_with_exponential_backoff
      (opRL (fun k => toString k) : Nat → Outcome Nat) 1 1 2 false
      (fun _ => 0)).result
      = .error (.rateLimit exhaustedMsg (some (.rateLimit (toString 1) none)))
    ∧ Exc.kind (.rateLimit exhaustedMsg (some (.rateLimit (toString 1) none)))
      = Exc.kind (.rateLimit (toString 1) none)
    ∧ Exc.kind (.rateLimit (toString 1) none) = "RateLimitException" :=
  c10_exhaustion_same_kind (opRL (fun k => toString k)) (fun k => toString k)
    (fun _ => rfl) 1 (by norm_num) 1 2 false (fun _ => 0)

end Retry
